import Mathlib

/-!
A verification development for the bug-basher triage/investigation pipeline.

The Python sources (src/investigator/triage.py, src/investigator/agent.py,
src/shared/models.py, src/shared/config.py) are shallowly embedded below:

* Python `float` values are modelled as exact rationals (`ℚ`).  All rational
  constants are built with `mkRat` so that every definition evaluates inside
  the kernel.  The model covers finite numbers; Python additionally accepts
  the literals NaN/Infinity in JSON, which always fail the `[0, 1]`
  confidence-range check and therefore cannot change any property proved here.
* Python exceptions are modelled with `Except`: a function that the source
  allows to raise an uncaught exception returns `Except PyExc _`; code whose
  exceptions are caught by an enclosing `try/except` is collapsed to `Option`.
* `re.search` with the two fixed patterns used by the sources (the fenced
  code-block pattern and the greedy first-to-last bracket span) is modelled
  by the executable functions `findFence` / `bareSpan`; the doc comments of
  those functions record why the model is exact for these patterns.
* pydantic v2 construction of the models is translated field by field: lax
  coercions that pydantic performs (numeric string → float) are included,
  and a failed validation is an error value.
-/

/-! ### Characters and whitespace -/

/-- The backtick character, written via its code point. -/
def backtick : Char := Char.ofNat 96

/-- Opening brace. -/
def lbrace : Char := Char.ofNat 123

/-- Closing brace. -/
def rbrace : Char := Char.ofNat 125

/-- Opening bracket. -/
def lbrack : Char := Char.ofNat 91

/-- Closing bracket. -/
def rbrack : Char := Char.ofNat 93

/-- Double quote. -/
def dquote : Char := Char.ofNat 34

/-- Backslash. -/
def bslash : Char := Char.ofNat 92

/-- ASCII whitespace as matched by the regex class `\s` and by `str.strip()`:
space, tab, newline, carriage return, vertical tab, form feed. -/
def isSpace (c : Char) : Bool :=
  c = ' ' || c = '\t' || c = '\n' || c = '\r' || c = '\x0b' || c = '\x0c'

/-- Python `str.strip()` — remove leading and trailing whitespace. -/
def stripChars (l : List Char) : List Char :=
  ((l.dropWhile isSpace).reverse.dropWhile isSpace).reverse

/-- `str.strip()` on strings. -/
def pyStrip (s : String) : String := String.mk (stripChars s.data)

/-! ### The fenced code-block pattern

Both sources search for the pattern `(three backticks)(?:json)?\s*\n?(.*?)(three backticks)`
with `re.DOTALL` (`triage.py` line 67, `agent.py` line 76).  `re.search`
finds the leftmost-starting match; the pattern starts with a literal fence,
so a match can only start at an occurrence of three backticks.

`findFence` returns the text before the first occurrence of three
consecutive backticks together with the text after it.  The full regex is
modelled by `fenceContent` below:

* the alternative `(?:json)?` prefers consuming a literal `json`; since
  `json` and whitespace contain no backtick, consuming them cannot skip
  over a closing fence, so no backtracking into the shorter alternatives
  can change whether the regex matches, only which (identical) text the
  group captures;
* `\s*` is greedy and `\n?` after a greedy `\s*` never consumes anything;
* `(.*?)` is minimal, so the closing fence is the first occurrence of three
  backticks at or after the content start;
* if no closing fence follows the first opening fence, `re.search`'s later
  start positions also fail: any later start position is itself an
  occurrence of three backticks, and a closing fence for it would also
  have served as a closing fence for the first start position. -/
def isTripleHead : List Char → Bool
  | c1 :: c2 :: c3 :: _ => c1 = backtick && c2 = backtick && c3 = backtick
  | _ => false

/-- Split a character list at the first occurrence of three consecutive
backticks: `findFence l = some (before, after)` with
`l = before ++ (three backticks) ++ after` and no triple inside `before`
or straddling into the fence. -/
def findFence : List Char → Option (List Char × List Char)
  | [] => none
  | c :: rest =>
      if isTripleHead (c :: rest) then some ([], rest.drop 2)
      else match findFence rest with
        | none => none
        | some (p, s) => some (c :: p, s)

/-- The literal tag `json` optionally present after the opening fence. -/
def jsonTag : List Char := ['j', 's', 'o', 'n']

/-- Consume an optional literal `json` after the opening fence. -/
def stripTag (l : List Char) : List Char :=
  if jsonTag.isPrefixOf l then l.drop 4 else l

/-- The capture group of the fenced-block regex, if the regex matches:
skip to the first fence, consume an optional `json` tag and greedy
whitespace, and capture minimally up to the next fence. -/
def fenceContent (l : List Char) : Option (List Char) :=
  match findFence l with
  | none => none
  | some (_, rest) =>
    match findFence ((stripTag rest).dropWhile isSpace) with
    | none => none
    | some (content, _) => some content

/-! ### The greedy bracket-span pattern

`re.search` of `\[` `.*` `\]` (or the brace form) with `re.DOTALL`: the
match starts at the first opening bracket that has a closing bracket
somewhere after it, and the greedy `.*` extends to the last closing
bracket of the whole text.  If the first opening bracket has no closing
bracket after it, no later opening bracket has one either, so the whole
search fails.  Hence: the span runs from the first opening bracket to the
last closing bracket, provided the latter comes after the former. -/

/-- The characters after the first occurrence of `t`, if any. -/
def splitFirst (t : Char) : List Char → Option (List Char)
  | [] => none
  | c :: rest => if c = t then some rest else splitFirst t rest

/-- The characters before the last occurrence of `t`, if any. -/
def splitLastAt (t : Char) : List Char → Option (List Char)
  | [] => none
  | c :: rest =>
    match splitLastAt t rest with
    | some m => some (c :: m)
    | none => if c = t then some [] else none

/-- The greedy first-to-last span delimited by `openc`/`closec`, brackets
included, as matched by the fallback regex. -/
def bareSpan (openc closec : Char) (l : List Char) : Option (List Char) :=
  match splitFirst openc l with
  | none => none
  | some rest =>
    match splitLastAt closec rest with
    | none => none
    | some middle => some (openc :: (middle ++ [closec]))

/-- The stripped capture of the fenced-block regex as a string, shared by
both extraction functions. -/
def fenceCandidate (text : String) : Option String :=
  (fenceContent text.data).map (fun l => String.mk (stripChars l))

/-- The stripped greedy array span. -/
def bareArraySpan (text : String) : Option String :=
  (bareSpan lbrack rbrack text.data).map (fun l => String.mk (stripChars l))

/-- The stripped greedy object span. -/
def bareObjectSpan (text : String) : Option String :=
  (bareSpan lbrace rbrace text.data).map (fun l => String.mk (stripChars l))

/-- Does the string start with an opening brace? -/
def startsWithLBrace (s : String) : Bool :=
  match s.data with
  | c :: _ => c = lbrace
  | [] => false

/-- `triage._extract_json` (triage.py lines 65-74): return the stripped
content of the first fenced block if the fence regex matches — with no
condition on the content — otherwise the greedy first-to-last bracket
span, otherwise nothing. -/
def _extract_json (text : String) : Option String :=
  match fenceCandidate text with
  | some c => some c
  | none => bareArraySpan text

/-- `agent._extract_json_object` (agent.py lines 73-85): the stripped
fenced-block content if it starts with an opening brace, otherwise the
greedy first-to-last brace span, otherwise nothing. -/
def _extract_json_object (text : String) : Option String :=
  match fenceCandidate text with
  | some c => if startsWithLBrace c then some c else bareObjectSpan text
  | none => bareObjectSpan text

/-! ### JSON values and a model of `json.loads` -/

/-- A decoded JSON value as produced by Python's `json.loads`.  Numbers are
exact rationals (see the header comment). -/
inductive JValue where
  | null : JValue
  | bool (b : Bool) : JValue
  | num (q : ℚ) : JValue
  | str (s : String) : JValue
  | arr (elems : List JValue) : JValue
  | obj (fields : List (String × JValue)) : JValue

/-- JSON whitespace accepted by `json.loads` between tokens. -/
def isJsonWs (c : Char) : Bool := c = ' ' || c = '\t' || c = '\n' || c = '\r'

/-- Skip inter-token whitespace. -/
def skipWsJ (l : List Char) : List Char := l.dropWhile isJsonWs

/-- Value of a hex digit. -/
def hexVal (c : Char) : Option ℕ :=
  if '0' ≤ c ∧ c ≤ '9' then some (c.toNat - 48)
  else if 'a' ≤ c ∧ c ≤ 'f' then some (c.toNat - 87)
  else if 'A' ≤ c ∧ c ≤ 'F' then some (c.toNat - 55)
  else none

/-- Parse the body of a JSON string after the opening quote, handling the
escape sequences of the JSON grammar.  (`\uXXXX` is decoded as a single
code point; surrogate-pair recombination is not modelled — no claim
depends on it.) -/
def parseJStrBody : ℕ → List Char → Option (List Char × List Char)
  | 0, _ => none
  | _ + 1, [] => none
  | fuel + 1, c :: rest =>
    if c = dquote then some ([], rest)
    else if c = bslash then
      match rest with
      | [] => none
      | e :: rest2 =>
        let decoded : Option (Char × List Char) :=
          if e = dquote then some (dquote, rest2)
          else if e = bslash then some (bslash, rest2)
          else if e = '/' then some ('/', rest2)
          else if e = 'b' then some ('\x08', rest2)
          else if e = 'f' then some ('\x0c', rest2)
          else if e = 'n' then some ('\n', rest2)
          else if e = 'r' then some ('\r', rest2)
          else if e = 't' then some ('\t', rest2)
          else if e = 'u' then
            match rest2 with
            | h1 :: h2 :: h3 :: h4 :: rest3 =>
              match hexVal h1, hexVal h2, hexVal h3, hexVal h4 with
              | some v1, some v2, some v3, some v4 =>
                some (Char.ofNat (((v1 * 16 + v2) * 16 + v3) * 16 + v4), rest3)
              | _, _, _, _ => none
            | _ => none
          else none
        match decoded with
        | none => none
        | some (d, rest') =>
          match parseJStrBody fuel rest' with
          | none => none
          | some (s, rem) => some (d :: s, rem)
    else
      match parseJStrBody fuel rest with
      | none => none
      | some (s, rem) => some (c :: s, rem)

/-- Digits of a decimal number as a natural number. -/
def digitsToNat (l : List Char) : ℕ := l.foldl (fun n c => 10 * n + (c.toNat - 48)) 0

/-- Parse a JSON number: optional minus sign, digits, optional fraction,
optional exponent.  The value is assembled with `mkRat` over integer
arithmetic.  (The model accepts leading zeros, which strict JSON rejects;
no claim exercises that corner.) -/
def parseJNum (l : List Char) : Option (ℚ × List Char) :=
  let (neg, l1) : Bool × List Char :=
    match l with
    | c :: rest => if c = '-' then (true, rest) else (false, l)
    | [] => (false, l)
  let ds := l1.takeWhile Char.isDigit
  if ds.isEmpty then none
  else
    let l2 := l1.drop ds.length
    let (fs, l3) : List Char × List Char :=
      match l2 with
      | c :: rest => if c = '.' then (rest.takeWhile Char.isDigit, rest.drop (rest.takeWhile Char.isDigit).length) else ([], l2)
      | [] => ([], l2)
    if l2 ≠ [] ∧ l2.headD ' ' = '.' ∧ fs.isEmpty then none
    else
      let expParse : Option (Bool × List Char × List Char) :=
        match l3 with
        | c :: rest =>
          if c = 'e' ∨ c = 'E' then
            match rest with
            | s :: rest2 =>
              if s = '-' then some (true, rest2.takeWhile Char.isDigit, rest2.drop (rest2.takeWhile Char.isDigit).length)
              else if s = '+' then some (false, rest2.takeWhile Char.isDigit, rest2.drop (rest2.takeWhile Char.isDigit).length)
              else some (false, rest.takeWhile Char.isDigit, rest.drop (rest.takeWhile Char.isDigit).length)
            | [] => some (false, [], [])
          else none
        | [] => none
      let (expNeg, es, l4) : Bool × List Char × List Char :=
        match expParse with
        | some (en, es, l4) => (en, es, l4)
        | none => (false, [], l3)
      if expParse.isSome ∧ es.isEmpty then none
      else
        let mantissa : ℤ := (digitsToNat ds) * (10 : ℕ) ^ fs.length + digitsToNat fs
        let mantissa : ℤ := if neg then -mantissa else mantissa
        let e : ℕ := digitsToNat es
        let q : ℚ :=
          if expNeg then mkRat mantissa ((10 : ℕ) ^ (fs.length + e))
          else mkRat (mantissa * ((10 : ℕ) ^ e : ℕ)) ((10 : ℕ) ^ fs.length)
        some (q, l4)

/-! Parse one JSON value (fuelled recursive descent).  `parseItems` and
`parseMembers` are the element loops for arrays and objects; each call
strictly decreases the fuel, so the mutual definitions evaluate in the
kernel. -/
mutual

def parseVal : ℕ → List Char → Option (JValue × List Char)
  | 0, _ => none
  | fuel + 1, l =>
    match skipWsJ l with
    | [] => none
    | c :: rest =>
      if c = dquote then
        match parseJStrBody (rest.length + 1) rest with
        | none => none
        | some (s, rem) => some (.str (String.mk s), rem)
      else if c = lbrace then
        match skipWsJ rest with
        | c2 :: rest2 =>
          if c2 = rbrace then some (.obj [], rest2)
          else parseMembers fuel (skipWsJ rest)
        | [] => none
      else if c = lbrack then
        match skipWsJ rest with
        | c2 :: rest2 =>
          if c2 = rbrack then some (.arr [], rest2)
          else parseItems fuel (skipWsJ rest)
        | [] => none
      else if List.isPrefixOf ['t', 'r', 'u', 'e'] (c :: rest) then
        some (.bool true, (c :: rest).drop 4)
      else if List.isPrefixOf ['f', 'a', 'l', 's', 'e'] (c :: rest) then
        some (.bool false, (c :: rest).drop 5)
      else if List.isPrefixOf ['n', 'u', 'l', 'l'] (c :: rest) then
        some (.null, (c :: rest).drop 4)
      else
        match parseJNum (c :: rest) with
        | none => none
        | some (q, rem) => some (.num q, rem)

def parseItems : ℕ → List Char → Option (JValue × List Char)
  | 0, _ => none
  | fuel + 1, l =>
    match parseVal fuel l with
    | none => none
    | some (v, rem) =>
      match skipWsJ rem with
      | c :: rest =>
        if c = ',' then
          match parseItems fuel rest with
          | some (.arr vs, rem2) => some (.arr (v :: vs), rem2)
          | _ => none
        else if c = rbrack then some (.arr [v], rest)
        else none
      | [] => none

def parseMembers : ℕ → List Char → Option (JValue × List Char)
  | 0, _ => none
  | fuel + 1, l =>
    match skipWsJ l with
    | c :: rest =>
      if c = dquote then
        match parseJStrBody (rest.length + 1) rest with
        | none => none
        | some (k, rem) =>
          match skipWsJ rem with
          | c2 :: rest2 =>
            if c2 = ':' then
              match parseVal fuel rest2 with
              | none => none
              | some (v, rem2) =>
                match skipWsJ rem2 with
                | c3 :: rest3 =>
                  if c3 = ',' then
                    match parseMembers fuel rest3 with
                    | some (.obj ms, rem3) => some (.obj ((String.mk k, v) :: ms), rem3)
                    | _ => none
                  else if c3 = rbrace then some (.obj [(String.mk k, v)], rest3)
                  else none
                | [] => none
            else none
          | [] => none
      else none
    | [] => none

end

/-- Model of `json.loads`: parse exactly one JSON value with only
whitespace around it; `none` corresponds to `json.JSONDecodeError`. -/
def json_loads (s : String) : Option JValue :=
  match parseVal (s.data.length + 1) s.data with
  | none => none
  | some (v, rem) => if (skipWsJ rem).isEmpty then some v else none

/-! ### Python exceptions and coercions -/

/-- The Python exception classes relevant to the embedded code.  pydantic's
`ValidationError` subclasses `ValueError` and is identified with it here. -/
inductive PyExc where
  | typeError : PyExc
  | valueError : PyExc
deriving DecidableEq

/-- Python `float(str)`: optional surrounding whitespace, optional sign,
digits with an optional fraction and exponent.  (Python also accepts
`inf`/`nan` spellings, which no claim exercises.) -/
def strToFloat (s : String) : Option ℚ :=
  let l := s.data.dropWhile isSpace
  let (neg, l1) : Bool × List Char :=
    match l with
    | c :: rest => if c = '-' then (true, rest) else if c = '+' then (false, rest) else (false, l)
    | [] => (false, l)
  let ds := l1.takeWhile Char.isDigit
  let l2 := l1.drop ds.length
  let (fs, l3) : List Char × List Char :=
    match l2 with
    | c :: rest => if c = '.' then (rest.takeWhile Char.isDigit, rest.drop (rest.takeWhile Char.isDigit).length) else ([], l2)
    | [] => ([], l2)
  if ds.isEmpty ∧ fs.isEmpty then none
  else
    let expParse : Option (Bool × List Char × List Char) :=
      match l3 with
      | c :: rest =>
        if c = 'e' ∨ c = 'E' then
          match rest with
          | s1 :: rest2 =>
            if s1 = '-' then some (true, rest2.takeWhile Char.isDigit, rest2.drop (rest2.takeWhile Char.isDigit).length)
            else if s1 = '+' then some (false, rest2.takeWhile Char.isDigit, rest2.drop (rest2.takeWhile Char.isDigit).length)
            else some (false, rest.takeWhile Char.isDigit, rest.drop (rest.takeWhile Char.isDigit).length)
          | [] => some (false, [], [])
        else none
      | [] => none
    let (expNeg, es, l4) : Bool × List Char × List Char :=
      match expParse with
      | some (en, es, l4) => (en, es, l4)
      | none => (false, [], l3)
    if expParse.isSome ∧ es.isEmpty then none
    else if ¬ (l4.dropWhile isSpace).isEmpty then none
    else
      let mantissa : ℤ := (digitsToNat ds) * (10 : ℕ) ^ fs.length + digitsToNat fs
      let mantissa : ℤ := if neg then -mantissa else mantissa
      let e : ℕ := digitsToNat es
      some (if expNeg then mkRat mantissa ((10 : ℕ) ^ (fs.length + e))
            else mkRat (mantissa * ((10 : ℕ) ^ e : ℕ)) ((10 : ℕ) ^ fs.length))

/-- Python `float(x)` on a decoded JSON value: numbers pass through, bools
become 0/1, numeric strings are parsed, everything else raises. -/
def pyFloat : JValue → Except PyExc ℚ
  | .num q => .ok q
  | .bool b => .ok (if b then mkRat 1 1 else mkRat 0 1)
  | .str s =>
    match strToFloat s with
    | some q => .ok q
    | none => .error .valueError
  | .null => .error .typeError
  | .arr _ => .error .typeError
  | .obj _ => .error .typeError

/-- Python truthiness `bool(x)` of a decoded JSON value (always succeeds). -/
def pyTruthy : JValue → Bool
  | .null => false
  | .bool b => b
  | .num q => decide (q ≠ 0)
  | .str s => !s.data.isEmpty
  | .arr xs => !xs.isEmpty
  | .obj fs => !fs.isEmpty

/-- Python `str(x)` of a decoded JSON value (always succeeds).  Strings
pass through unchanged; the rendering of non-string values approximates
`repr` and is not load-bearing for any claim. -/
def pyStr : JValue → String
  | .str s => s
  | .null => "None"
  | .bool true => "True"
  | .bool false => "False"
  | .num q => toString q.num ++ (if q.den = 1 then "" else "/" ++ toString q.den)
  | .arr _ => "[...]"
  | .obj _ => "\x7b...\x7d"

/-- Python iteration `for x in v`: lists yield elements, strings yield
one-character strings, dicts yield their keys; other values raise
`TypeError`. -/
def pyIter : JValue → Except PyExc (List JValue)
  | .arr xs => .ok xs
  | .str s => .ok (s.data.map (fun c => .str (String.mk [c])))
  | .obj fs => .ok ((fs.map Prod.fst).dedup.map .str)
  | .null => .error .typeError
  | .bool _ => .error .typeError
  | .num _ => .error .typeError

/-- `dict` lookup for a decoded JSON object: `json.loads` keeps the last
occurrence of a duplicated key. -/
def jlookupLast (fields : List (String × JValue)) (k : String) : Option JValue :=
  fields.foldl (fun acc p => if p.1 = k then some p.2 else acc) none

/-- `k in d` for a decoded JSON object. -/
def hasKey (fields : List (String × JValue)) (k : String) : Bool :=
  fields.any (fun p => p.1 = k)

/-! ### The shared data models (src/shared/models.py) -/

/-- `models.TriageResult` (models.py lines 63-73). -/
structure TriageResult where
  repo : String
  confidence : ℚ
  reasoning : String := ""
deriving DecidableEq

/-- The `confidence_in_range` field validator shared by both result models
(models.py lines 68-79): values outside `[0.0, 1.0]` raise `ValueError`. -/
def _validate_confidence (v : ℚ) : Except PyExc ℚ :=
  if 0 ≤ v ∧ v ≤ 1 then .ok v else .error .valueError

/-- Constructing a `TriageResult` from already type-checked field values:
pydantic runs the `confidence_in_range` validator and raises a
`ValidationError` (a `ValueError`) on failure. -/
def TriageResult.validate (repo : String) (confidence : ℚ) (reasoning : String) :
    Except PyExc TriageResult :=
  match _validate_confidence confidence with
  | .error e => .error e
  | .ok v => .ok ⟨repo, v, reasoning⟩

/-- `models.FileChange` (models.py lines 82-84). -/
structure FileChange where
  path : String
  diff : String := ""
deriving DecidableEq

/-- `models.ProposedFix` (models.py lines 87-89). -/
structure ProposedFix where
  description : String := ""
  files_changed : List FileChange := []
deriving DecidableEq

/-- `models.InvestigationResult` (models.py lines 92-102). -/
structure InvestigationResult where
  repo : String
  root_cause_found : Bool := false
  confidence : ℚ := mkRat 0 1
  root_cause : String := ""
  evidence : List String := []
  recent_suspect_commits : List String := []
  proposed_fix : Option ProposedFix := none
  next_steps : List String := []
deriving DecidableEq

/-- Constructing an `InvestigationResult` from already type-checked field
values: pydantic runs `confidence_in_range` and raises on failure. -/
def InvestigationResult.validate (repo : String) (root_cause_found : Bool)
    (confidence : ℚ) (root_cause : String) (evidence : List String)
    (recent_suspect_commits : List String) (proposed_fix : Option ProposedFix)
    (next_steps : List String) : Except PyExc InvestigationResult :=
  match _validate_confidence confidence with
  | .error e => .error e
  | .ok v =>
    .ok ⟨repo, root_cause_found, v, root_cause, evidence,
         recent_suspect_commits, proposed_fix, next_steps⟩

/-- `models.Action` (models.py lines 105-108); the bare name `Action` is
taken by Mathlib. -/
structure Models.Action where
  action_type : String
  confidence : ℚ
  has_fix : Bool := false
deriving DecidableEq

/-- `models.BugReport` (models.py lines 51-60). -/
structure BugReport where
  jira_key : String
  summary : String
  description : String := ""
  labels : List String := []
  priority : String := "P3"
  reporter : Option String := none
  components : List String := []
  created : Option String := none
  url : Option String := none

/-- `models.Repository` (models.py lines 26-34). -/
structure Repository where
  name : String
  description : Option String := none
  github_slug : Option String := none
  component_type : Option String := none
  lifecycle : Option String := none
  owner : Option String := none
  system : Option String := none
  tags : List String := []

/-- `models.AggregatedFindings` (models.py lines 111-115). -/
structure AggregatedFindings where
  bug : BugReport
  results : List InvestigationResult := []
  best_result : Option InvestigationResult := none
  action : Option Models.Action := none

/-! ### Configuration (src/shared/config.py) -/

/-- `config.TriageConfig` (config.py lines 94-101).  `max_repos` is a
Python `int` and is therefore modelled as `ℤ`. -/
structure TriageConfig where
  provider : String := "codex"
  anthropic_api_key : String := ""
  model : Option String := none
  max_repos : ℤ := 5
  min_confidence : ℚ := mkRat 3 10
  use_subprocess : Bool := false

/-- `config.InvestigationConfig` (config.py lines 104-115). -/
structure InvestigationConfig where
  provider : String := "codex"
  model : Option String := none
  max_budget_usd : ℚ := mkRat 1 2
  clone_depth : ℤ := 100
  clone_timeout_seconds : ℚ := mkRat 120 1
  agent_timeout_seconds : ℚ := mkRat 300 1
  max_parallel_agents : ℤ := 3
  high_confidence_threshold : ℚ := mkRat 4 5
  uncertain_confidence_threshold : ℚ := mkRat 1 2
  github_token : String := ""

/-! ### Stable descending sort and Python slicing

Python's `list.sort(key=..., reverse=True)` is a stable descending sort.
Any two stable sorts under the same strict comparison agree as functions,
so the insertion sort below (which inserts each later element after all
earlier elements of greater-or-equal key) computes the same list. -/

/-- Insert `a` after every element whose key is at least `key a`. -/
def insertDescBy {α : Type} (key : α → ℚ) (a : α) : List α → List α
  | [] => [a]
  | b :: l => if key b < key a then a :: b :: l else b :: insertDescBy key a l

/-- Stable sort by `key`, descending. -/
def sortDescBy {α : Type} (key : α → ℚ) (l : List α) : List α :=
  l.foldl (fun acc x => insertDescBy key x acc) []

/-- Python slice `l[:n]` for an `int` bound `n`: a nonnegative bound keeps
the first `n` elements; a negative bound drops `-n` elements from the end. -/
def pyTake {α : Type} (n : ℤ) (l : List α) : List α :=
  if 0 ≤ n then l.take n.toNat else l.take (l.length - (-n).toNat)

/-! ### `triage.parse_triage_response` (triage.py lines 77-109) -/

/-- pydantic v2 lax coercion into the `confidence: float` field: numbers
pass, numeric strings parse, everything else (including bools) fails. -/
def laxFloat : JValue → Option ℚ
  | .num q => some q
  | .str s => strToFloat s
  | _ => none

/-- `TriageResult(**item)` for a decoded JSON object `item`: pydantic
checks `repo` is a string, coerces `confidence` laxly, checks `reasoning`
(defaulting to the empty string), ignores extra keys, and runs the range
validator; any failure is caught by the caller's `except (ValueError,
TypeError)` and surfaces as `none` here. -/
def mkTriageResultItem (fields : List (String × JValue)) : Option TriageResult :=
  match jlookupLast fields "repo" with
  | some (.str repo) =>
    match (jlookupLast fields "confidence").bind laxFloat with
    | some conf =>
      match jlookupLast fields "reasoning" with
      | none => (TriageResult.validate repo conf "").toOption
      | some (.str r) => (TriageResult.validate repo conf r).toOption
      | some _ => none
    | none => none
  | _ => none

/-- The post-decode pipeline of `parse_triage_response`: keep dict items
that carry both a `repo` and a `confidence` key and survive construction,
filter by the configured minimum confidence, sort by confidence
descending, and apply the `[:max_repos]` slice. -/
def triagePost (items : List JValue) (config : TriageConfig) : List TriageResult :=
  let results := items.filterMap (fun item =>
    match item with
    | .obj fields =>
      if hasKey fields "repo" && hasKey fields "confidence" then
        mkTriageResultItem fields
      else none
    | _ => none)
  let results := results.filter (fun r => decide (config.min_confidence ≤ r.confidence))
  pyTake config.max_repos (sortDescBy (fun r => r.confidence) results)

/-- `triage.parse_triage_response` (triage.py lines 77-109): extract a JSON
chunk (an empty extraction is falsy and treated as absent), decode it,
require a top-level array, then run the post-decode pipeline.  Every
failure returns the empty list; nothing is raised. -/
def parse_triage_response (raw : String) (config : TriageConfig) : List TriageResult :=
  match _extract_json raw with
  | none => []
  | some extracted =>
    if extracted = "" then []
    else
      match json_loads extracted with
      | none => []
      | some (.arr items) => triagePost items config
      | some _ => []

/-! ### `agent.parse_investigation_response` (agent.py lines 88-132) -/

/-- pydantic check of a `str` field value (used where the source does not
apply `str(...)` first). -/
def laxStr : JValue → Option String
  | .str s => some s
  | _ => none

/-- `list(x)` followed by pydantic validation of `list[str]`: `list(x)`
raises `TypeError` on non-iterables, and a non-string element fails
validation with a `ValueError`. -/
def pyStrList (v : JValue) : Except PyExc (List String) :=
  match pyIter v with
  | .error e => .error e
  | .ok items =>
    match items.mapM laxStr with
    | some ss => .ok ss
    | none => .error .valueError

/-- One iteration of the `files_changed` loop (agent.py lines 111-113):
non-dict entries and entries without a `path` key are skipped;
`FileChange(path=..., diff=...)` raises an uncaught `ValidationError` when
either field is not a string.  Returns `none` for a skipped entry. -/
def mkFileChangeItem (fc : JValue) : Except PyExc (Option FileChange) :=
  match fc with
  | .obj fields =>
    if hasKey fields "path" then
      match jlookupLast fields "path" with
      | some pv =>
        match laxStr pv with
        | some path =>
          match (jlookupLast fields "diff").getD (.str "") with
          | .str diff => .ok (some ⟨path, diff⟩)
          | _ => .error .valueError
        | none => .error .valueError
      | none => .ok none
    else .ok none
  | _ => .ok none

/-- The `files_changed` loop over the decoded items. -/
def collectFileChanges : List JValue → Except PyExc (List FileChange)
  | [] => .ok []
  | fc :: rest =>
    match mkFileChangeItem fc with
    | .error e => .error e
    | .ok o =>
      match collectFileChanges rest with
      | .error e => .error e
      | .ok fs =>
        match o with
        | some f => .ok (f :: fs)
        | none => .ok fs

/-- The `proposed_fix` block (agent.py lines 106-117).  This block runs
OUTSIDE any `try/except` in the source, so the `TypeError` from iterating
a non-iterable `files_changed` and the `ValidationError`s from ill-typed
`FileChange`/`ProposedFix` fields propagate to the caller. -/
def parseProposedFix (fields : List (String × JValue)) :
    Except PyExc (Option ProposedFix) :=
  match jlookupLast fields "proposed_fix" with
  | some (.obj fixFields) =>
    match pyIter ((jlookupLast fixFields "files_changed").getD (.arr [])) with
    | .error e => .error e
    | .ok items =>
      match collectFileChanges items with
      | .error e => .error e
      | .ok files =>
        match laxStr ((jlookupLast fixFields "description").getD (.str "")) with
        | some desc => .ok (some ⟨desc, files⟩)
        | none => .error .valueError
  | _ => .ok none

/-- The final `InvestigationResult(...)` construction (agent.py lines
119-132), wrapped in `try/except (ValueError, TypeError)` in the source:
any coercion or validation failure yields `None`. -/
def buildInvestigationResult (fields : List (String × JValue))
    (repo_name : String) (pf : Option ProposedFix) : Option InvestigationResult :=
  (match pyFloat ((jlookupLast fields "confidence").getD (.num (mkRat 0 1))) with
   | .error e => .error e
   | .ok conf =>
     match pyStrList ((jlookupLast fields "evidence").getD (.arr [])) with
     | .error e => .error e
     | .ok evidence =>
       match pyStrList ((jlookupLast fields "recent_suspect_commits").getD (.arr [])) with
       | .error e => .error e
       | .ok commits =>
         match pyStrList ((jlookupLast fields "next_steps").getD (.arr [])) with
         | .error e => .error e
         | .ok nextSteps =>
           InvestigationResult.validate repo_name
             (pyTruthy ((jlookupLast fields "root_cause_found").getD (.bool false)))
             conf
             (pyStr ((jlookupLast fields "root_cause").getD (.str "")))
             evidence commits pf nextSteps
   : Except PyExc InvestigationResult).toOption

/-- `agent.parse_investigation_response` (agent.py lines 88-132).  The
result type records that the function can raise: errors escaping the
un-guarded `proposed_fix` block surface as `.error`; every handled failure
is `.ok none`. -/
def parse_investigation_response (raw : String) (repo_name : String) :
    Except PyExc (Option InvestigationResult) :=
  match _extract_json_object raw with
  | none => .ok none
  | some extracted =>
    if extracted = "" then .ok none
    else
      match json_loads extracted with
      | none => .ok none
      | some (.obj fields) =>
        match parseProposedFix fields with
        | .error e => .error e
        | .ok pf => .ok (buildInvestigationResult fields repo_name pf)
      | some _ => .ok none

/-! ### `agent.clone_repo` (agent.py lines 135-174)

The source builds a temp directory, spawns `git clone --depth N
--single-branch URL DEST` and communicates with the process.  Crucially,
`asyncio.wait_for(..., timeout=config.clone_timeout_seconds)` wraps ONLY
`asyncio.create_subprocess_exec` — process creation — while the actual
data transfer happens during the un-wrapped `await proc.communicate()`.
The model makes the timing explicit through an environment oracle. -/

/-- Environment oracle for one `clone_repo` call: whether the `git`
executable exists (`FileNotFoundError` otherwise), how long process
creation takes, how long `communicate()` takes, and the process outcome. -/
structure CloneEnv where
  gitInstalled : Bool := true
  spawnSeconds : ℚ := mkRat 0 1
  transferSeconds : ℚ := mkRat 0 1
  exitCode : ℤ := 0
  stderrText : String := ""
  tmpdir : String := "/tmp/bug-basher-x"

/-- Observable outcome of one `clone_repo` call: the returned path or the
`RuntimeError` message, whether the temp directory was removed, and the
wall-clock seconds the call occupied. -/
structure CloneRun where
  result : Except String String
  tmpdirRemoved : Bool
  elapsedSeconds : ℚ

/-- Python `slug.split("/")[-1]`. -/
def lastComponent (s : String) : String :=
  String.mk ((s.data.reverse.takeWhile (fun c => ¬ c = '/')).reverse)

/-- The clone URL (agent.py lines 141-144): a configured token is embedded
into the HTTPS address. -/
def cloneUrl (github_slug : String) (config : InvestigationConfig) : String :=
  if config.github_token ≠ "" then
    "https://x-access-token:" ++ config.github_token ++ "@github.com/" ++ github_slug ++ ".git"
  else
    "https://github.com/" ++ github_slug ++ ".git"

/-- The `git` argument vector (agent.py lines 148-157). -/
def cloneCmd (github_slug : String) (config : InvestigationConfig) (dest : String) :
    List String :=
  ["git", "clone", "--depth", toString config.clone_depth, "--single-branch",
   cloneUrl github_slug config, dest]

/-- `agent.clone_repo` under the environment oracle.

* missing `git` → `RuntimeError("git not found")`, temp dir removed;
* process creation slower than the configured timeout → the `wait_for`
  fires and `RuntimeError("Clone timed out ...")` is raised, temp dir
  removed — note that `transferSeconds` plays no role in this branch
  because `proc.communicate()` is NOT under `wait_for`;
* otherwise the call waits out the whole transfer, then checks the exit
  code: non-zero → `RuntimeError("Clone failed: <stderr>")`, temp dir
  removed; zero → the destination path is returned. -/
def clone_repo (github_slug : String) (config : InvestigationConfig)
    (env : CloneEnv) : CloneRun :=
  let dest := env.tmpdir ++ "/" ++ lastComponent github_slug
  if ¬ env.gitInstalled then
    ⟨.error "git not found", true, env.spawnSeconds⟩
  else if config.clone_timeout_seconds < env.spawnSeconds then
    ⟨.error ("Clone timed out after " ++ toString config.clone_timeout_seconds ++ "s"),
     true, config.clone_timeout_seconds⟩
  else if env.exitCode ≠ 0 then
    ⟨.error ("Clone failed: " ++ pyStrip env.stderrText), true,
     env.spawnSeconds + env.transferSeconds⟩
  else
    ⟨.ok dest, false, env.spawnSeconds + env.transferSeconds⟩

/-! ### `agent.investigate_repos` (agent.py lines 279-317) -/

/-- The slug map `{r.name: r.github_slug for r in repos if r.github_slug}`
(agent.py line 286): a dict comprehension in which later entries overwrite
earlier ones and falsy (`None` or empty) slugs are skipped. -/
def slugMap (repos : List Repository) : String → Option String :=
  repos.foldl (fun m r =>
    match r.github_slug with
    | some s => if s ≠ "" then (fun n => if n = r.name then some s else m n) else m
    | none => m) (fun _ => none)

/-- One unit of work `_investigate_single` (agent.py lines 288-304) under
an oracle `runUnit slug repo_name` standing for `clone_repo` followed by
`run_investigation_agent` (a caught `RuntimeError` from the clone and
every agent failure already surface as `none` in the oracle's codomain). -/
def investigateSingle (repos : List Repository)
    (runUnit : String → String → Option InvestigationResult)
    (tr : TriageResult) : Option InvestigationResult :=
  match slugMap repos tr.repo with
  | none => none
  | some slug => runUnit slug tr.repo

/-- `agent.investigate_repos`: run one unit per triage result (the
semaphore throttles execution but `asyncio.gather` returns results in
task order, so the collected list is order-independent of scheduling),
drop the `None`s, and sort by confidence descending. -/
def investigate_repos (bug : BugReport) (triage_results : List TriageResult)
    (repos : List Repository) (config : InvestigationConfig)
    (runUnit : String → String → Option InvestigationResult) :
    List InvestigationResult :=
  let raw_results := triage_results.map (investigateSingle repos runUnit)
  sortDescBy (fun r => r.confidence) (raw_results.filterMap id)

/-! ### `agent.aggregate_findings` (agent.py lines 320-356) -/

/-- `has_fix` (agent.py lines 331-334): a fix is present when
`proposed_fix` is non-null and its `files_changed` list is non-empty. -/
def hasFix (r : InvestigationResult) : Bool :=
  match r.proposed_fix with
  | none => false
  | some f => !f.files_changed.isEmpty

/-- `agent.aggregate_findings`, translated clause by clause from the
source's `if/elif/else` chain. -/
def aggregate_findings (bug : BugReport) (results : List InvestigationResult)
    (config : InvestigationConfig) : AggregatedFindings :=
  match results with
  | [] =>
    { bug := bug, results := results, best_result := none,
      action := some ⟨"comment_summary", mkRat 0 1, false⟩ }
  | best :: _ =>
    let action_type :=
      if config.high_confidence_threshold ≤ best.confidence then
        if hasFix best then "pr" else "comment_root_cause"
      else if config.uncertain_confidence_threshold ≤ best.confidence then
        "comment_uncertain"
      else "comment_summary"
    { bug := bug, results := results, best_result := some best,
      action := some ⟨action_type, best.confidence, hasFix best⟩ }

/-- The aggregation decision table as the specification words it (spec
§4.6 and claim C1), written independently of `aggregate_findings` for
comparison: take the first element as best; an empty list yields the
zero-confidence summarize action; then the precedence
fix-PR / root-cause / uncertain / summary with both thresholds inclusive
at their lower bound, where "fix present" means a non-null fix with a
non-empty file-change list. -/
def aggregateActionSpec (results : List InvestigationResult)
    (config : InvestigationConfig) : Models.Action :=
  match results.head? with
  | none => ⟨"comment_summary", mkRat 0 1, false⟩
  | some best =>
    let fixPresent : Bool :=
      best.proposed_fix.isSome &&
        decide (0 < (best.proposed_fix.map (fun f => f.files_changed.length)).getD 0)
    if config.high_confidence_threshold ≤ best.confidence ∧ fixPresent then
      ⟨"pr", best.confidence, fixPresent⟩
    else if config.high_confidence_threshold ≤ best.confidence then
      ⟨"comment_root_cause", best.confidence, fixPresent⟩
    else if config.uncertain_confidence_threshold ≤ best.confidence then
      ⟨"comment_uncertain", best.confidence, fixPresent⟩
    else
      ⟨"comment_summary", best.confidence, fixPresent⟩

/-! ### The orchestrator's admission control (agent.py lines 306-313, claim C9)

`investigate_repos` wraps every unit of work in
`async with semaphore: ...` where `semaphore = asyncio.Semaphore(n)`:
the semaphore is acquired before the unit starts and the `async with`
releases it on every exit path, success or failure.  The interleaving
behaviour is modelled as a transition system over counts of units in each
phase; a unit may start only when the semaphore has a free slot, and
completing a unit (in success or failure) returns its slot. -/

/-- Scheduler-visible state: how many units are pending, in flight and
finished, and the semaphore's free slots. -/
structure OrchState where
  pending : ℕ
  inflight : ℕ
  finished : ℕ
  sem : ℕ
deriving DecidableEq

/-- Initial state for `k` units under a semaphore of size `n`. -/
def orchInit (n k : ℕ) : OrchState := ⟨k, 0, 0, n⟩

/-- One scheduler step: start a pending unit (acquiring the semaphore) or
finish an in-flight unit (releasing it unconditionally). -/
inductive OrchStep : OrchState → OrchState → Prop
  | start (s : OrchState) (hp : 0 < s.pending) (hs : 0 < s.sem) :
      OrchStep s ⟨s.pending - 1, s.inflight + 1, s.finished, s.sem - 1⟩
  | finish (s : OrchState) (hi : 0 < s.inflight) :
      OrchStep s ⟨s.pending, s.inflight - 1, s.finished + 1, s.sem + 1⟩

/-- States reachable by the scheduler. -/
def OrchReachable (n k : ℕ) : OrchState → Prop :=
  Relation.ReflTransGen OrchStep (orchInit n k)

/-! ### Concrete inputs used by counterexamples, evaluations and witnesses -/

/-- The four-entry triage scenario input from the specification. -/
def c2ScenarioRaw : String :=
  "[\x7b\"repo\":\"a\",\"confidence\":0.95\x7d,\x7b\"repo\":\"b\",\"confidence\":0.40\x7d,\x7b\"repo\":\"c\",\"confidence\":0.80\x7d,\x7b\"repo\":\"d\",\"confidence\":0.70\x7d]"

/-- The scenario configuration: `max_repos=3`, `min_confidence=0.3`. -/
def c2ScenarioCfg : TriageConfig := { max_repos := 3, min_confidence := mkRat 3 10 }

/-- A syntactically valid two-entry triage response. -/
def c2CexRaw : String :=
  "[\x7b\"repo\":\"a\",\"confidence\":0.9\x7d,\x7b\"repo\":\"b\",\"confidence\":0.8\x7d]"

/-- A configuration with a negative `max_repos`; `TriageConfig` is a plain
dataclass, so nothing rejects it. -/
def c2CexCfg : TriageConfig := { max_repos := -1, min_confidence := mkRat 0 1 }

/-- An investigation response whose `proposed_fix.files_changed` is not
iterable. -/
def c3FailRaw : String := "\x7b\"proposed_fix\": \x7b\"files_changed\": 123\x7d\x7d"

/-- A triage response with a fenced block that does not contain the
ranking array, followed by a valid bare ranking array. -/
def c4CexText : String := "```\nnope\n```\n[\x7b\"repo\":\"a\",\"confidence\":0.9\x7d]"

/-- A bare JSON ranking array that happens to contain the fence marker
inside a string value. -/
def c8CexText : String := "[\x7b\"repo\":\"a\",\"confidence\":0.9,\"reasoning\":\"```\"\x7d]"

/-- Configuration for the C8 counterexample. -/
def c8CexCfg : TriageConfig := { max_repos := 5, min_confidence := mkRat 3 10 }

/-- Wrap a bare response in a tagged fenced block, exactly as stated by
the idempotence property. -/
def fenceWrap (text : String) : String := "```json\n" ++ text ++ "\n```"

/-- An agent response carrying its own `repo` field, different from the
caller-supplied repository name. -/
def c10Raw : String := "\x7b\"repo\": \"evil\", \"confidence\": 0.5\x7d"

/-- The result `parse_investigation_response c10Raw "checkout-service"`
produces. -/
def c10Expected : InvestigationResult :=
  { repo := "checkout-service", confidence := mkRat 1 2 }

/-- Environment for the clone-timeout evaluation: `git` spawns instantly
and the transfer takes 100000 seconds. -/
def c5Env : CloneEnv :=
  { gitInstalled := true, spawnSeconds := mkRat 0 1,
    transferSeconds := mkRat 100000 1, exitCode := 0, stderrText := "",
    tmpdir := "/tmp/bug-basher-x" }

/-- The default investigation configuration (clone timeout 120 s). -/
def c5Cfg : InvestigationConfig := {}

/-! ### Lemmas about the stable descending sort -/

theorem insertDescBy_perm {α : Type} (key : α → ℚ) (a : α) (l : List α) :
    (insertDescBy key a l).Perm (a :: l) := by
  induction l with
  | nil => simp [insertDescBy]
  | cons b l ih =>
    simp only [insertDescBy]
    split
    · exact List.Perm.refl _
    · exact ((ih.cons b).trans (List.Perm.swap a b l))

theorem sortDescBy_perm_aux {α : Type} (key : α → ℚ) (l acc : List α) :
    (l.foldl (fun acc x => insertDescBy key x acc) acc).Perm (acc ++ l) := by
  induction l generalizing acc with
  | nil => simp
  | cons x l ih =>
    simp only [List.foldl_cons]
    refine (ih (insertDescBy key x acc)).trans ?_
    refine (List.Perm.append_right l (insertDescBy_perm key x acc)).trans ?_
    exact List.perm_middle.symm

theorem sortDescBy_perm {α : Type} (key : α → ℚ) (l : List α) :
    (sortDescBy key l).Perm l := by
  simpa using sortDescBy_perm_aux key l []

theorem mem_insertDescBy {α : Type} {key : α → ℚ} {a z : α} {l : List α} :
    z ∈ insertDescBy key a l ↔ z = a ∨ z ∈ l := by
  rw [(insertDescBy_perm key a l).mem_iff]
  simp

theorem insertDescBy_pairwise {α : Type} (key : α → ℚ) (a : α) {l : List α}
    (h : l.Pairwise (fun x y => key y ≤ key x)) :
    (insertDescBy key a l).Pairwise (fun x y => key y ≤ key x) := by
  induction l with
  | nil => simp [insertDescBy]
  | cons b l ih =>
    simp only [insertDescBy]
    rcases List.pairwise_cons.mp h with ⟨hb, hl⟩
    split
    · refine List.pairwise_cons.mpr ⟨?_, h⟩
      intro z hz
      rcases List.mem_cons.mp hz with rfl | hz
      · exact le_of_lt (by assumption)
      · exact (hb z hz).trans (le_of_lt (by assumption))
    · refine List.pairwise_cons.mpr ⟨?_, ih hl⟩
      intro z hz
      rcases mem_insertDescBy.mp hz with rfl | hz
      · exact le_of_not_lt (by assumption)
      · exact hb z hz

theorem sortDescBy_pairwise_aux {α : Type} (key : α → ℚ) (l acc : List α)
    (h : acc.Pairwise (fun x y => key y ≤ key x)) :
    (l.foldl (fun acc x => insertDescBy key x acc) acc).Pairwise
      (fun x y => key y ≤ key x) := by
  induction l generalizing acc with
  | nil => simpa using h
  | cons x l ih =>
    simp only [List.foldl_cons]
    exact ih _ (insertDescBy_pairwise key x h)

theorem sortDescBy_pairwise {α : Type} (key : α → ℚ) (l : List α) :
    (sortDescBy key l).Pairwise (fun x y => key y ≤ key x) :=
  sortDescBy_pairwise_aux key l [] (List.Pairwise.nil)

/-! ### Lemmas about the Python slice -/

theorem pyTake_eq_take {α : Type} (n : ℤ) (l : List α) :
    ∃ m, pyTake n l = l.take m := by
  unfold pyTake
  split
  · exact ⟨n.toNat, rfl⟩
  · exact ⟨l.length - (-n).toNat, rfl⟩

theorem pyTake_pairwise {α : Type} {R : α → α → Prop} {n : ℤ} {l : List α}
    (h : l.Pairwise R) : (pyTake n l).Pairwise R := by
  obtain ⟨m, hm⟩ := pyTake_eq_take n l
  rw [hm]
  exact h.sublist (List.take_sublist m l)

theorem mem_of_mem_pyTake {α : Type} {n : ℤ} {l : List α} {a : α}
    (h : a ∈ pyTake n l) : a ∈ l := by
  obtain ⟨m, hm⟩ := pyTake_eq_take n l
  rw [hm] at h
  exact List.mem_of_mem_take h

theorem pyTake_length_le {α : Type} {n : ℤ} (hn : 0 ≤ n) (l : List α) :
    ((pyTake n l).length : ℤ) ≤ n := by
  unfold pyTake
  rw [if_pos hn]
  have h1 : (l.take n.toNat).length ≤ n.toNat := by
    simp [List.length_take]
  omega

set_option maxRecDepth 200000

/-! ### Shape of `parse_triage_response` results -/

theorem parse_triage_shape (raw : String) (config : TriageConfig) :
    parse_triage_response raw config = [] ∨
    ∃ items, parse_triage_response raw config = triagePost items config := by
  unfold parse_triage_response
  split
  · exact Or.inl rfl
  · split
    · exact Or.inl rfl
    · split
      · exact Or.inl rfl
      · exact Or.inr ⟨_, rfl⟩
      · exact Or.inl rfl

theorem triagePost_pairwise (items : List JValue) (config : TriageConfig) :
    (triagePost items config).Pairwise (fun a b => b.confidence ≤ a.confidence) :=
  pyTake_pairwise (sortDescBy_pairwise _ _)

theorem triagePost_min_confidence {items : List JValue} {config : TriageConfig}
    {r : TriageResult} (h : r ∈ triagePost items config) :
    config.min_confidence ≤ r.confidence := by
  have h1 := mem_of_mem_pyTake h
  rw [(sortDescBy_perm _ _).mem_iff] at h1
  have h2 := List.mem_filter.mp h1
  exact of_decide_eq_true h2.2

theorem triagePost_length {items : List JValue} {config : TriageConfig}
    (hn : 0 ≤ config.max_repos) :
    ((triagePost items config).length : ℤ) ≤ config.max_repos :=
  pyTake_length_le hn _

theorem parse_triage_pairwise (raw : String) (config : TriageConfig) :
    (parse_triage_response raw config).Pairwise
      (fun a b => b.confidence ≤ a.confidence) := by
  rcases parse_triage_shape raw config with h | ⟨items, h⟩
  · rw [h]; exact List.Pairwise.nil
  · rw [h]; exact triagePost_pairwise items config

theorem parse_triage_min_confidence (raw : String) (config : TriageConfig) :
    ∀ r ∈ parse_triage_response raw config,
      config.min_confidence ≤ r.confidence := by
  rcases parse_triage_shape raw config with h | ⟨items, h⟩
  · rw [h]; intro r hr; cases hr
  · rw [h]; intro r hr; exact triagePost_min_confidence hr

theorem parse_triage_length {raw : String} {config : TriageConfig}
    (hn : 0 ≤ config.max_repos) :
    ((parse_triage_response raw config).length : ℤ) ≤ config.max_repos := by
  rcases parse_triage_shape raw config with h | ⟨items, h⟩
  · rw [h]; exact hn
  · rw [h]; exact triagePost_length hn

/-- C2 (amended: the length cap additionally assumes the configured
`max_repos` is nonnegative — `TriageConfig` is an unvalidated dataclass
and a negative Python slice bound drops elements from the end instead of
capping, see `c2_counterexample`): for every raw response string and
every triage configuration with `max_repos ≥ 0`, the returned list is
sorted confidence-descending, has length at most `max_repos`, and every
element's confidence is at least `min_confidence`; and the four-entry
scenario input with `max_repos=3`, `min_confidence=0.3` yields exactly
`a(0.95), c(0.80), d(0.70)` in that order. -/
theorem c2_theorem :
    (∀ (raw : String) (config : TriageConfig), 0 ≤ config.max_repos →
      (parse_triage_response raw config).Pairwise
        (fun a b => b.confidence ≤ a.confidence) ∧
      ((parse_triage_response raw config).length : ℤ) ≤ config.max_repos ∧
      ∀ r ∈ parse_triage_response raw config,
        config.min_confidence ≤ r.confidence) ∧
    parse_triage_response c2ScenarioRaw c2ScenarioCfg =
      [⟨"a", mkRat 19 20, ""⟩, ⟨"c", mkRat 4 5, ""⟩, ⟨"d", mkRat 7 10, ""⟩] := by
  refine ⟨fun raw config hn => ⟨parse_triage_pairwise raw config,
    parse_triage_length hn, parse_triage_min_confidence raw config⟩, ?_⟩
  rfl

/-- C2, counterexample to the claim as stated: with the (unvalidated)
configuration `max_repos = -1` and a two-entry response, the returned
list has length 1, which is not at most the configured `max_repos`. -/
theorem c2_counterexample :
    ¬ (((parse_triage_response c2CexRaw c2CexCfg).length : ℤ) ≤ c2CexCfg.max_repos) := by
  have h : parse_triage_response c2CexRaw c2CexCfg = [⟨"a", mkRat 9 10, ""⟩] := rfl
  rw [h]
  decide

/-- Witness for `c2_theorem` at the scenario input. -/
theorem c2_theorem_witness :
    (parse_triage_response c2ScenarioRaw c2ScenarioCfg).Pairwise
      (fun a b => b.confidence ≤ a.confidence) ∧
    ((parse_triage_response c2ScenarioRaw c2ScenarioCfg).length : ℤ) ≤
      c2ScenarioCfg.max_repos :=
  ⟨(c2_theorem.1 c2ScenarioRaw c2ScenarioCfg (by decide)).1,
   (c2_theorem.1 c2ScenarioRaw c2ScenarioCfg (by decide)).2.1⟩

/-! ### C1: the aggregation decision table -/

theorem hasFix_eq_spec (best : InvestigationResult) :
    (best.proposed_fix.isSome &&
      decide (0 < (best.proposed_fix.map (fun f => f.files_changed.length)).getD 0)) =
      hasFix best := by
  cases h : best.proposed_fix with
  | none => simp [hasFix, h]
  | some f =>
    cases hf : f.files_changed with
    | nil => simp [hasFix, h, hf]
    | cons a l => simp [hasFix, h, hf, List.isEmpty]

/-- C1: for every bug, result list and configuration, `aggregate_findings`
takes the first element as the best result, returns the input list and
bug unchanged, and derives the action exactly as the specification's
decision table states it (`aggregateActionSpec`): empty list →
comment-summary at confidence 0 with no fix; confidence ≥ high threshold
with a non-empty fix → PR; ≥ high threshold otherwise → root-cause
comment; otherwise ≥ uncertain threshold → uncertain comment; otherwise →
summary comment; both thresholds inclusive, and "fix present" exactly
when the proposed fix is non-null with a non-empty file-change list. -/
theorem c1_theorem (bug : BugReport) (results : List InvestigationResult)
    (config : InvestigationConfig) :
    (aggregate_findings bug results config).action =
      some (aggregateActionSpec results config) ∧
    (aggregate_findings bug results config).best_result = results.head? ∧
    (aggregate_findings bug results config).results = results ∧
    (aggregate_findings bug results config).bug = bug := by
  cases results with
  | nil => exact ⟨rfl, rfl, rfl, rfl⟩
  | cons best rest =>
    refine ⟨?_, rfl, rfl, rfl⟩
    simp only [aggregate_findings, aggregateActionSpec, List.head?, hasFix_eq_spec]
    by_cases h1 : config.high_confidence_threshold ≤ best.confidence
    · by_cases h2 : hasFix best = true
      · simp [h1, h2]
      · simp only [Bool.not_eq_true] at h2
        simp [h1, h2]
    · by_cases h3 : config.uncertain_confidence_threshold ≤ best.confidence
      · simp [h1, h3]
      · simp [h1, h3]

/-! ### C6: confidence range validation -/

/-- C6: constructing a `TriageResult` or an `InvestigationResult` with a
confidence outside `[0, 1]` fails with the `ValueError` raised by the
shared range validator, and construction succeeds at exactly 0 and
exactly 1. -/
theorem c6_theorem (repo reasoning root_cause : String) (v : ℚ) (rcf : Bool)
    (ev com ns : List String) (pf : Option ProposedFix) :
    ((v < 0 ∨ 1 < v) →
      TriageResult.validate repo v reasoning = .error .valueError ∧
      InvestigationResult.validate repo rcf v root_cause ev com pf ns =
        .error .valueError) ∧
    TriageResult.validate repo 0 reasoning = .ok ⟨repo, 0, reasoning⟩ ∧
    TriageResult.validate repo 1 reasoning = .ok ⟨repo, 1, reasoning⟩ ∧
    InvestigationResult.validate repo rcf 0 root_cause ev com pf ns =
      .ok ⟨repo, rcf, 0, root_cause, ev, com, pf, ns⟩ ∧
    InvestigationResult.validate repo rcf 1 root_cause ev com pf ns =
      .ok ⟨repo, rcf, 1, root_cause, ev, com, pf, ns⟩ := by
  have hbad : ∀ hv : v < 0 ∨ 1 < v, _validate_confidence v = .error .valueError := by
    intro hv
    unfold _validate_confidence
    rw [if_neg]
    rcases hv with hv | hv
    · rintro ⟨h0, _⟩; linarith
    · rintro ⟨_, h1⟩; linarith
  have h0 : _validate_confidence 0 = .ok 0 := by
    unfold _validate_confidence
    rw [if_pos (by norm_num)]
  have h1 : _validate_confidence 1 = .ok 1 := by
    unfold _validate_confidence
    rw [if_pos (by norm_num)]
  refine ⟨fun hv => ?_, ?_, ?_, ?_, ?_⟩
  · unfold TriageResult.validate InvestigationResult.validate
    rw [hbad hv]
    exact ⟨rfl, rfl⟩
  · unfold TriageResult.validate; rw [h0]
  · unfold TriageResult.validate; rw [h1]
  · unfold InvestigationResult.validate; rw [h0]
  · unfold InvestigationResult.validate; rw [h1]

/-- Witness for `c6_theorem` at `v = 2`. -/
theorem c6_theorem_witness :
    TriageResult.validate "r" 2 "" = .error .valueError ∧
    InvestigationResult.validate "r" false 2 "" [] [] none [] = .error .valueError :=
  ( c6_theorem "r" "" "" 2 false [] [] [] none).1 (Or.inr (by norm_num))

/-! ### C7: the orchestrator's result list -/

/-- C7: `investigate_repos` contributes no result for candidates whose
name resolves to no slug in the catalog; the returned list is a
permutation of exactly the per-unit results that are not `none`, sorted
confidence-descending; and an input of only slug-less candidates yields
the empty list. -/
theorem c7_theorem (bug : BugReport) (triage_results : List TriageResult)
    (repos : List Repository) (config : InvestigationConfig)
    (runUnit : String → String → Option InvestigationResult) :
    (investigate_repos bug triage_results repos config runUnit).Pairwise
      (fun a b => b.confidence ≤ a.confidence) ∧
    (investigate_repos bug triage_results repos config runUnit).Perm
      (triage_results.filterMap (investigateSingle repos runUnit)) ∧
    ((∀ tr ∈ triage_results, slugMap repos tr.repo = none) →
      investigate_repos bug triage_results repos config runUnit = []) := by
  have heq : investigate_repos bug triage_results repos config runUnit =
      sortDescBy (fun r => r.confidence)
        (triage_results.filterMap (investigateSingle repos runUnit)) := by
    show sortDescBy (fun r => r.confidence)
        ((triage_results.map (investigateSingle repos runUnit)).filterMap id) = _
    rw [List.filterMap_map, Function.id_comp]
  refine ⟨sortDescBy_pairwise _ _, ?_, ?_⟩
  · rw [heq]
    exact sortDescBy_perm _ _
  · intro h
    rw [heq]
    have hnil : triage_results.filterMap (investigateSingle repos runUnit) = [] := by
      rw [List.filterMap_eq_nil_iff]
      intro tr htr
      unfold investigateSingle
      rw [h tr htr]
    rw [hnil]
    rfl

/-- Witness for `c7_theorem`: one candidate against an empty catalog. -/
theorem c7_theorem_witness :
    investigate_repos { jira_key := "BUG-1", summary := "s" }
      [⟨"checkout-service", mkRat 9 10, ""⟩] [] {} (fun _ _ => none) = [] :=
  (c7_theorem { jira_key := "BUG-1", summary := "s" }
      [⟨"checkout-service", mkRat 9 10, ""⟩] [] {} (fun _ _ => none)).2.2
    (fun _ _ => rfl)

/-! ### C9: the admission-control bound -/

theorem orch_invariant {n k : ℕ} {s : OrchState} (h : OrchReachable n k s) :
    s.inflight + s.sem = n := by
  induction h with
  | refl => simp [orchInit]
  | tail _ hstep ih =>
    cases hstep with
    | start hp hs => dsimp only at ih ⊢; omega
    | finish hi => dsimp only at ih ⊢; omega

/-- C9: in the transition-system model of the orchestrator's semaphore
discipline (acquire before a unit starts, release unconditionally on its
completion), no reachable scheduler state has more than the configured
`max_parallel_agents` units in flight, for any number of candidates. -/
theorem c9_theorem (config : InvestigationConfig) (k : ℕ) (s : OrchState)
    (h : OrchReachable config.max_parallel_agents.toNat k s) :
    s.inflight ≤ config.max_parallel_agents.toNat := by
  have := orch_invariant h
  omega

/-- Witness for `c9_theorem`: ceiling 1, two candidates, initial state. -/
theorem c9_theorem_witness :
    (orchInit ({ max_parallel_agents := 1 } : InvestigationConfig).max_parallel_agents.toNat 2).inflight ≤
      ({ max_parallel_agents := 1 } : InvestigationConfig).max_parallel_agents.toNat :=
  c9_theorem { max_parallel_agents := 1 } 2 _ Relation.ReflTransGen.refl

/-! ### C10: the repo field is the caller's -/

theorem buildInvestigationResult_repo {fields : List (String × JValue)}
    {repo_name : String} {pf : Option ProposedFix} {r : InvestigationResult}
    (h : buildInvestigationResult fields repo_name pf = some r) :
    r.repo = repo_name := by
  unfold buildInvestigationResult at h
  split at h
  · simp [Except.toOption] at h
  · split at h
    · simp [Except.toOption] at h
    · split at h
      · simp [Except.toOption] at h
      · split at h
        · simp [Except.toOption] at h
        · unfold InvestigationResult.validate at h
          split at h
          · simp [Except.toOption] at h
          · simp only [Except.toOption] at h
            cases h
            rfl

/-- C10: whenever `parse_investigation_response` returns a result, its
`repo` field equals the caller-supplied `repo_name`; any `repo` field in
the agent-produced JSON is ignored. -/
theorem c10_theorem (raw repo_name : String) (r : InvestigationResult)
    (h : parse_investigation_response raw repo_name = .ok (some r)) :
    r.repo = repo_name := by
  unfold parse_investigation_response at h
  split at h
  · cases h
  · split at h
    · cases h
    · split at h
      · cases h
      · split at h
        · cases h
        · injection h with h
          exact buildInvestigationResult_repo h
      · cases h

/-- Witness for `c10_theorem`: a response whose JSON carries
`"repo": "evil"` still yields the caller's repository name. -/
theorem c10_theorem_witness : c10Expected.repo = "checkout-service" :=
  c10_theorem c10Raw "checkout-service" c10Expected rfl

/-! ### C3: the parser can raise on ill-typed proposed-fix fields -/

/-- C3 (evaluation at the failing input): on a response whose
`proposed_fix.files_changed` is the number 123, the un-guarded
`for fc in fix_data.get("files_changed", [])` loop raises `TypeError`
instead of degrading to "no result". -/
theorem c3_theorem :
    parse_investigation_response c3FailRaw "checkout-service" = .error .typeError := rfl

/-! ### C5: the clone timeout does not bound the transfer -/

/-- C5 (evaluation at the failing input): with `git` present, instant
process creation and a 100000-second transfer, `clone_repo` under the
default 120-second clone timeout raises nothing and returns the
destination path — the call's wall clock exceeds the configured timeout
because `asyncio.wait_for` wraps only `create_subprocess_exec`, not
`proc.communicate()`. -/
theorem c5_theorem :
    (clone_repo "example-org/slow-repo" c5Cfg c5Env).result =
      .ok "/tmp/bug-basher-x/slow-repo" ∧
    (clone_repo "example-org/slow-repo" c5Cfg c5Env).tmpdirRemoved = false ∧
    c5Cfg.clone_timeout_seconds <
      (clone_repo "example-org/slow-repo" c5Cfg c5Env).elapsedSeconds := by
  refine ⟨rfl, rfl, ?_⟩
  show c5Cfg.clone_timeout_seconds <
      (clone_repo "example-org/slow-repo" c5Cfg c5Env).elapsedSeconds
  have h : (clone_repo "example-org/slow-repo" c5Cfg c5Env).elapsedSeconds =
      c5Env.spawnSeconds + c5Env.transferSeconds := rfl
  rw [h]
  show (mkRat 120 1 : ℚ) < mkRat 0 1 + mkRat 100000 1
  rw [Rat.mkRat_eq_div, Rat.mkRat_eq_div, Rat.mkRat_eq_div]
  norm_num

/-! ### C4: extraction order -/

/-- C4, counterexample to the claim as stated: for the triage direction
the source never checks that a fenced block's content starts with `[`;
with a fenced block reading `nope` followed by a valid bare ranking
array, extraction returns `nope` rather than falling back to the greedy
bracket span. -/
theorem c4_counterexample :
    _extract_json c4CexText = some "nope" ∧
    (∀ c, fenceCandidate c4CexText = some c → c.data.head? ≠ some lbrack) ∧
    bareArraySpan c4CexText = some "[\x7b\"repo\":\"a\",\"confidence\":0.9\x7d]" ∧
    _extract_json c4CexText ≠ bareArraySpan c4CexText := by
  refine ⟨rfl, ?_, rfl, by decide⟩
  intro c hc
  have : c = "nope" := by
    have h : fenceCandidate c4CexText = some "nope" := rfl
    rw [h] at hc
    exact (Option.some_injective _ hc).symm
  rw [this]
  decide

/-- C4 (amended): extraction tries the fenced block before the greedy
span, but only the investigation-object direction prefers a fenced block
whose trimmed content starts with the expected opening bracket (`{`),
falling back to the greedy object span otherwise; the triage direction
uses the first fenced block unconditionally whenever the fence regex
matches, and uses the greedy array span only when it does not. -/
theorem c4_amended (text : String) :
    (fenceCandidate text = none →
      _extract_json text = bareArraySpan text ∧
      _extract_json_object text = bareObjectSpan text) ∧
    (∀ c, fenceCandidate text = some c →
      _extract_json text = some c ∧
      (startsWithLBrace c = true → _extract_json_object text = some c) ∧
      (startsWithLBrace c = false → _extract_json_object text = bareObjectSpan text)) := by
  constructor
  · intro h
    unfold _extract_json _extract_json_object
    rw [h]
    exact ⟨rfl, rfl⟩
  · intro c hc
    unfold _extract_json _extract_json_object
    rw [hc]
    refine ⟨rfl, fun hs => ?_, fun hs => ?_⟩
    · simp [hs]
    · simp [hs]

/-- Witness for `c4_amended` at the counterexample text. -/
theorem c4_amended_witness : _extract_json c4CexText = some "nope" :=
  ((c4_amended c4CexText).2 "nope" rfl).1

/-! ### C8: fence-wrapping idempotence -/

theorem findFence_triple (rest : List Char) :
    findFence (backtick :: backtick :: backtick :: rest) = some ([], rest) := by
  simp [findFence, isTripleHead]

theorem findFence_cons_of_not_triple {c : Char} {l : List Char}
    (h : isTripleHead (c :: l) = false) :
    findFence (c :: l) = (findFence l).map (fun p => (c :: p.1, p.2)) := by
  cases hf : findFence l with
  | none =>
    unfold findFence
    rw [if_neg (by simp [h]), hf]
    rfl
  | some p =>
    unfold findFence
    rw [if_neg (by simp [h]), hf]
    rfl

theorem findFence_tail_none {c : Char} {l : List Char}
    (h : findFence (c :: l) = none) : findFence l = none := by
  by_cases htri : isTripleHead (c :: l) = true
  · unfold findFence at h
    rw [if_pos htri] at h
    cases h
  · rw [findFence_cons_of_not_triple (Bool.not_eq_true _ ▸ htri)] at h
    cases hf : findFence l with
    | none => rfl
    | some p => rw [hf] at h; cases h

theorem findFence_dropWhile_none {q : Char → Bool} {l : List Char}
    (h : findFence l = none) : findFence (l.dropWhile q) = none := by
  induction l with
  | nil => exact h
  | cons c l ih =>
    rw [List.dropWhile_cons]
    split
    · exact ih (findFence_tail_none h)
    · exact h

theorem findFence_append_marker (body : List Char) (hb : findFence body = none) :
    findFence (body ++ '\n' :: backtick :: backtick :: backtick :: []) =
      some (body ++ ['\n'], []) := by
  induction body with
  | nil => decide
  | cons c body ih =>
    have htail : findFence body = none := findFence_tail_none hb
    have hnt : isTripleHead (c :: (body ++ '\n' :: backtick :: backtick :: backtick :: [])) = false := by
      cases body with
      | nil => simp [isTripleHead, backtick]
      | cons c2 body2 =>
        cases body2 with
        | nil => simp [isTripleHead, backtick]
        | cons c3 body3 =>
          by_cases htri : isTripleHead (c :: c2 :: c3 :: (body3 ++ '\n' :: backtick :: backtick :: backtick :: [])) = true
          · have h2 : isTripleHead (c :: c2 :: c3 :: body3) = true := htri
            unfold findFence at hb
            rw [if_pos h2] at hb
            cases hb
          · simpa using Bool.not_eq_true _ ▸ htri
    rw [List.cons_append, findFence_cons_of_not_triple hnt]
    rw [ih htail]
    simp

theorem dropWhile_append_of_all {q : Char → Bool} {p r : List Char}
    (h : ∀ c ∈ p, q c = true) :
    List.dropWhile q (p ++ r) = List.dropWhile q r := by
  induction p with
  | nil => rfl
  | cons c p ih =>
    rw [List.cons_append, List.dropWhile_cons, if_pos (h c (List.mem_cons_self c p))]
    exact ih (fun x hx => h x (List.mem_cons_of_mem c hx))

theorem dropWhile_cons_of_neg {q : Char → Bool} {c : Char} {l : List Char}
    (h : q c = false) : List.dropWhile q (c :: l) = c :: l := by
  rw [List.dropWhile_cons, if_neg (by simp [h])]

theorem splitFirst_past {t : Char} {W R : List Char} (h : ∀ c ∈ W, ¬ c = t) :
    splitFirst t (W ++ t :: R) = some R := by
  induction W with
  | nil => simp [splitFirst]
  | cons c W ih =>
    rw [List.cons_append]
    unfold splitFirst
    rw [if_neg (h c (List.mem_cons_self c W))]
    exact ih (fun x hx => h x (List.mem_cons_of_mem c hx))

theorem splitLastAt_none_of_not_mem {t : Char} {l : List Char}
    (h : ∀ c ∈ l, ¬ c = t) : splitLastAt t l = none := by
  induction l with
  | nil => rfl
  | cons c l ih =>
    unfold splitLastAt
    rw [ih (fun x hx => h x (List.mem_cons_of_mem c hx))]
    rw [if_neg (h c (List.mem_cons_self c l))]

theorem splitLastAt_last {t : Char} {m T : List Char} (hT : ∀ c ∈ T, ¬ c = t) :
    splitLastAt t (m ++ t :: T) = some m := by
  induction m with
  | nil =>
    show splitLastAt t (t :: T) = some []
    unfold splitLastAt
    rw [splitLastAt_none_of_not_mem hT, if_pos rfl]
  | cons c m ih =>
    rw [List.cons_append]
    unfold splitLastAt
    rw [ih]

theorem stripChars_span_pad (mid Tsp : List Char)
    (hT : ∀ c ∈ Tsp, isSpace c = true) :
    stripChars ((lbrack :: (mid ++ [rbrack])) ++ Tsp) = lbrack :: (mid ++ [rbrack]) := by
  unfold stripChars
  rw [List.cons_append, dropWhile_cons_of_neg (by decide)]
  have hrev : (lbrack :: ((mid ++ [rbrack]) ++ Tsp)).reverse =
      Tsp.reverse ++ (rbrack :: (mid.reverse ++ [lbrack])) := by
    simp
  rw [hrev]
  rw [dropWhile_append_of_all (fun c hc => hT c (List.mem_reverse.mp hc))]
  rw [dropWhile_cons_of_neg (by decide)]
  simp

theorem parse_triage_congr {a b : String} (config : TriageConfig)
    (h : _extract_json a = _extract_json b) :
    parse_triage_response a config = parse_triage_response b config := by
  unfold parse_triage_response
  rw [h]

/-- C8 (amended: additionally assume the bare array text does not itself
contain the three-backtick fence marker — see `c8_counterexample` for why
an embedded marker breaks the equality).  For every text whose stripped
form starts with `[` and ends with `]` (in particular every bare JSON
ranking array) and which contains no fence marker, parsing the text and
parsing the text wrapped in a tagged fenced block yield identical triage
result lists, for every configuration. -/
theorem c8_amended (text : String) (config : TriageConfig)
    (hnf : findFence text.data = none)
    (hhead : (stripChars text.data).head? = some lbrack)
    (hlast : (stripChars text.data).getLast? = some rbrack) :
    parse_triage_response (fenceWrap text) config =
      parse_triage_response text config := by
  -- Decompose the stripped text as `[ mid ]`.
  obtain ⟨mid, hS⟩ : ∃ mid, stripChars text.data = lbrack :: (mid ++ [rbrack]) := by
    cases hS : stripChars text.data with
    | nil => rw [hS] at hhead; cases hhead
    | cons c rest =>
      rw [hS] at hhead hlast
      have hc : c = lbrack := by simpa using hhead
      subst hc
      rcases List.eq_nil_or_concat rest with rfl | ⟨mid, lastc, rfl⟩
      · have hbad : lbrack = rbrack := by simpa using hlast
        exact absurd hbad (by decide)
      · have hl : lastc = rbrack := by
          rw [List.concat_eq_append, ← List.cons_append] at hlast
          rw [List.getLast?_concat] at hlast
          exact Option.some.inj hlast
        refine ⟨mid, ?_⟩
        rw [hl, List.concat_eq_append]
  -- Decompose the raw text as  spaces ++ stripped ++ spaces.
  set W := text.data.takeWhile isSpace with hWdef
  set B := text.data.dropWhile isSpace with hBdef
  have hWB : text.data = W ++ B := (List.takeWhile_append_dropWhile isSpace text.data).symm
  have hW : ∀ c ∈ W, isSpace c = true := fun c hc => List.mem_takeWhile_imp hc
  set T := (B.reverse.takeWhile isSpace).reverse with hTdef
  have hT : ∀ c ∈ T, isSpace c = true := by
    intro c hc
    exact List.mem_takeWhile_imp (List.mem_reverse.mp hc)
  have hWnb : ∀ c ∈ W, ¬ c = lbrack := by
    intro c hc he
    have h1 := hW c hc
    rw [he] at h1
    exact absurd h1 (by decide)
  have hTnb : ∀ c ∈ T, ¬ c = rbrack := by
    intro c hc he
    have h1 := hT c hc
    rw [he] at h1
    exact absurd h1 (by decide)
  have hstripB : stripChars text.data = (B.reverse.dropWhile isSpace).reverse := rfl
  have hBS : B = stripChars text.data ++ T := by
    rw [hstripB, hTdef]
    rw [← List.reverse_append, List.takeWhile_append_dropWhile, List.reverse_reverse]
  have hBshape : B = lbrack :: ((mid ++ [rbrack]) ++ T) := by
    rw [hBS, hS, List.cons_append]
  -- The unwrapped side extracts the stripped text via the greedy span.
  have hfc : fenceCandidate text = none := by
    unfold fenceCandidate fenceContent
    rw [hnf]
    rfl
  have htext : text.data = W ++ lbrack :: (mid ++ rbrack :: T) := by
    rw [hWB, hBshape]
    simp
  have hspan : bareSpan lbrack rbrack text.data = some (lbrack :: (mid ++ [rbrack])) := by
    unfold bareSpan
    rw [htext, splitFirst_past hWnb]
    dsimp only
    rw [splitLastAt_last hTnb]
  have hstripS : stripChars (lbrack :: (mid ++ [rbrack])) = lbrack :: (mid ++ [rbrack]) := by
    have h1 := stripChars_span_pad mid [] (by intro c hc; cases hc)
    simpa using h1
  have hx1 : _extract_json text = some (String.mk (lbrack :: (mid ++ [rbrack]))) := by
    unfold _extract_json
    rw [hfc]
    unfold bareArraySpan
    rw [hspan]
    simp [hstripS]
  -- The wrapped side extracts the same text via the fence.
  have hWD : (fenceWrap text).data =
      backtick :: backtick :: backtick ::
        ('j' :: 's' :: 'o' :: 'n' :: '\n' ::
          (text.data ++ '\n' :: backtick :: backtick :: backtick :: [])) := by
    show (("```json\n" ++ text) ++ "\n```").data = _
    have h1 : ∀ a b : String, (a ++ b).data = a.data ++ b.data := fun a b => rfl
    rw [h1, h1]
    rfl
  have htag : stripTag ('j' :: 's' :: 'o' :: 'n' ::
      ('\n' :: (text.data ++ '\n' :: backtick :: backtick :: backtick :: []))) =
      '\n' :: (text.data ++ '\n' :: backtick :: backtick :: backtick :: []) := by
    unfold stripTag
    rw [if_pos (by simp [jsonTag, List.isPrefixOf])]
    rfl
  have hdw : List.dropWhile isSpace
      ('\n' :: (text.data ++ '\n' :: backtick :: backtick :: backtick :: [])) =
      B ++ '\n' :: backtick :: backtick :: backtick :: [] := by
    rw [List.dropWhile_cons, if_pos (by decide)]
    rw [hWB, List.append_assoc]
    rw [dropWhile_append_of_all hW]
    rw [hBshape, List.cons_append]
    exact dropWhile_cons_of_neg (by decide)
  have hfB : findFence B = none := by
    rw [hBdef]
    exact findFence_dropWhile_none hnf
  have hfc2 : fenceContent (fenceWrap text).data = some (B ++ ['\n']) := by
    unfold fenceContent
    rw [hWD, findFence_triple]
    show (match findFence ((stripTag _).dropWhile isSpace) with
      | none => none
      | some (content, _) => some content) = _
    rw [htag, hdw, findFence_append_marker B hfB]
  have hstrip2 : stripChars (B ++ ['\n']) = lbrack :: (mid ++ [rbrack]) := by
    have hB2 : B ++ ['\n'] = (lbrack :: (mid ++ [rbrack])) ++ (T ++ ['\n']) := by
      rw [hBshape]
      simp
    rw [hB2]
    refine stripChars_span_pad mid (T ++ ['\n']) ?_
    intro c hc
    rcases List.mem_append.mp hc with hc | hc
    · exact hT c hc
    · rw [List.mem_singleton] at hc
      rw [hc]
      decide
  have hx2 : _extract_json (fenceWrap text) =
      some (String.mk (lbrack :: (mid ++ [rbrack]))) := by
    unfold _extract_json fenceCandidate
    rw [hfc2]
    simp [hstrip2]
  exact parse_triage_congr config (hx2.trans hx1.symm)

/-- C8, counterexample to the claim as stated: for a bare JSON ranking
array that contains the fence marker inside a string value, wrapping the
text in a tagged fenced block changes the parse — the wrapped form's
fence capture stops at the embedded marker and yields nothing, while the
bare form parses the full array. -/
theorem c8_counterexample :
    parse_triage_response (fenceWrap c8CexText) c8CexCfg ≠
      parse_triage_response c8CexText c8CexCfg := by
  decide

/-- Witness for `c8_amended` at a concrete fence-free array. -/
theorem c8_amended_witness :
    parse_triage_response (fenceWrap "[]") c8CexCfg =
      parse_triage_response "[]" c8CexCfg :=
  c8_amended "[]" c8CexCfg (by decide) (by decide) (by decide)
